import Mathlib

/-!
Shallow embedding of the `handyman` vector module
(`src/math/vector/vec2d.rs` and `src/math/vector/vec3d.rs`).

`Vec2D<I>` and `Vec3D<I>` are plain tuple structs over a scalar type `I`.
The Rust trait bounds (`Num`, `Copy`, `Signed` from the `num` crate) are
rendered as typeclass parameters (`Zero`, `One`, `Add`, `Mul`, `Neg`);
the algebraic laws those crates guarantee appear as explicit hypotheses
of the theorems that need them.
-/

/-- A two-dimensional vector backed by a scalar type `I`
(Rust: `pub struct Vec2D<I>(pub I, pub I)`). -/
structure Vec2D (I : Type) where
  fst : I
  snd : I
deriving DecidableEq, Repr

/-- A three-dimensional vector backed by a scalar type `I`
(Rust: `pub struct Vec3D<I>(pub I, pub I, pub I)`). -/
structure Vec3D (I : Type) where
  fst : I
  snd : I
  thd : I
deriving DecidableEq, Repr

namespace Vec2D

variable {I O U : Type}

/-- Rust `Vec2D::from_tuple`. -/
def from_tuple (p : I × I) : Vec2D I :=
  ⟨p.1, p.2⟩

/-- Rust `Vec2D::x`. -/
def x (v : Vec2D I) : I :=
  v.fst

/-- Rust `Vec2D::y`. -/
def y (v : Vec2D I) : I :=
  v.snd

/-- Rust `Vec2D::apply`: map a function over both components. -/
def apply (v : Vec2D I) (f : I → U) : Vec2D U :=
  ⟨f v.fst, f v.snd⟩

/-- Rust `Vec2D::zip_with`: combine corresponding components of two
vectors with a binary function. -/
def zip_with (v : Vec2D I) (other : Vec2D O) (f : I → O → U) : Vec2D U :=
  ⟨f v.fst other.fst, f v.snd other.snd⟩

/-- Rust `Vec2D::zero`: the additive identity vector. -/
def zero [Zero I] : Vec2D I :=
  ⟨0, 0⟩

/-- Rust `Vec2D::one`: the multiplicative identity vector. -/
def one [One I] : Vec2D I :=
  ⟨1, 1⟩

/-- Rust `impl Mul<I> for Vec2D<I>`: `self.apply(|x| x * rhs)`. -/
def mul [Mul I] (v : Vec2D I) (rhs : I) : Vec2D I :=
  v.apply (fun a => a * rhs)

/-- Rust `impl Neg for Vec2D<I>`: `self * I::one().neg()`. -/
def neg [Mul I] [One I] [Neg I] (v : Vec2D I) : Vec2D I :=
  v.mul (-(1 : I))

/-- Rust `impl Add for Vec2D<I>`: `self.zip_with(rhs, I::add)`. -/
def add [Add I] (v rhs : Vec2D I) : Vec2D I :=
  v.zip_with rhs (fun a b => a + b)

/-- Positional component access: index 0 is `x`, index 1 is `y`. -/
def get (v : Vec2D I) : Fin 2 → I
  | 0 => v.fst
  | 1 => v.snd

end Vec2D

namespace Vec3D

variable {I O U : Type}

/-- Rust `Vec3D::from_tuple`. -/
def from_tuple (p : I × I × I) : Vec3D I :=
  ⟨p.1, p.2.1, p.2.2⟩

/-- Rust `Vec3D::x`. -/
def x (v : Vec3D I) : I :=
  v.fst

/-- Rust `Vec3D::y`. -/
def y (v : Vec3D I) : I :=
  v.snd

/-- Rust `Vec3D::z`. -/
def z (v : Vec3D I) : I :=
  v.thd

/-- Rust `Vec3D::apply`: map a function over all three components. -/
def apply (v : Vec3D I) (f : I → U) : Vec3D U :=
  ⟨f v.fst, f v.snd, f v.thd⟩

/-- Rust `Vec3D::zip_with`: combine corresponding components of two
vectors with a binary function. -/
def zip_with (v : Vec3D I) (other : Vec3D O) (f : I → O → U) : Vec3D U :=
  ⟨f v.fst other.fst, f v.snd other.snd, f v.thd other.thd⟩

/-- Rust `Vec3D::zero`: the additive identity vector. -/
def zero [Zero I] : Vec3D I :=
  ⟨0, 0, 0⟩

/-- Rust `Vec3D::one`: the multiplicative identity vector. -/
def one [One I] : Vec3D I :=
  ⟨1, 1, 1⟩

/-- Rust `impl Mul<I> for Vec3D<I>`: `self.apply(|x| x * rhs)`. -/
def mul [Mul I] (v : Vec3D I) (rhs : I) : Vec3D I :=
  v.apply (fun a => a * rhs)

/-- Rust `impl Neg for Vec3D<I>`: `self * I::one().neg()`. -/
def neg [Mul I] [One I] [Neg I] (v : Vec3D I) : Vec3D I :=
  v.mul (-(1 : I))

/-- Rust `impl Add for Vec3D<I>`: `self.zip_with(rhs, I::add)`. -/
def add [Add I] (v rhs : Vec3D I) : Vec3D I :=
  v.zip_with rhs (fun a b => a + b)

/-- Positional component access: index 0 is `x`, index 1 is `y`,
index 2 is `z`. -/
def get (v : Vec3D I) : Fin 3 → I
  | 0 => v.fst
  | 1 => v.snd
  | 2 => v.thd

end Vec3D

/-- Claim C1: for vectors of the same arity and scalar type, `a + b` is the
vector whose i-th component is `a[i] + b[i]`, and `a + b` coincides with
`a.zip_with(b, add)`, for both `Vec2D` and `Vec3D`. -/
theorem C1_add_componentwise_eq_zip_with {I : Type} [Add I]
    (a b : Vec2D I) (c d : Vec3D I) :
    (∀ i, (Vec2D.add a b).get i = a.get i + b.get i) ∧
    Vec2D.add a b = a.zip_with b (fun p q => p + q) ∧
    (∀ i, (Vec3D.add c d).get i = c.get i + d.get i) ∧
    Vec3D.add c d = c.zip_with d (fun p q => p + q) := by
  refine ⟨?_, rfl, ?_, rfl⟩ <;> intro i <;> fin_cases i <;> rfl

/-- Claim C2: over a signed scalar type (one in which multiplying by the
negated multiplicative identity negates: `x * (-1) = -x`), `-v` equals
`v * (-1)` and every component of `-v` is the scalar negation of the
corresponding component of `v`, for both arities; concretely over `Int`,
`-Vec2D(2, -3) = Vec2D(-2, 3)`. -/
theorem C2_neg_componentwise {I : Type} [Mul I] [One I] [Neg I]
    (hneg : ∀ a : I, a * -1 = -a) (v : Vec2D I) (w : Vec3D I) :
    Vec2D.neg v = v.mul (-1) ∧
    (∀ i, (Vec2D.neg v).get i = -(v.get i)) ∧
    Vec3D.neg w = w.mul (-1) ∧
    (∀ i, (Vec3D.neg w).get i = -(w.get i)) ∧
    Vec2D.neg (Vec2D.mk (2 : Int) (-3)) = Vec2D.mk (-2) 3 := by
  refine ⟨rfl, ?_, rfl, ?_, by decide⟩ <;>
    intro i <;> fin_cases i <;>
    simp [Vec2D.neg, Vec2D.mul, Vec2D.apply, Vec2D.get,
      Vec3D.neg, Vec3D.mul, Vec3D.apply, Vec3D.get, hneg]

/-- Witness for C2 at `I = Int`, `v = Vec2D(2, -3)`, `w = Vec3D(1, 2, 3)`. -/
theorem C2_neg_componentwise_witness :
    Vec2D.neg (Vec2D.mk (2 : Int) (-3)) = Vec2D.mk (-2) 3 :=
  (C2_neg_componentwise (fun a : Int => mul_neg_one a)
    (Vec2D.mk 2 (-3)) (Vec3D.mk 1 2 3)).2.2.2.2

/-- Claim C3: over a signed scalar type satisfying `x * (-1) = -x` and the
additive-inverse law `x + (-x) = 0`, `v + (-v)` is the zero vector, for
both arities. -/
theorem C3_add_neg_eq_zero {I : Type} [Add I] [Mul I] [One I] [Neg I] [Zero I]
    (hneg : ∀ a : I, a * -1 = -a) (hinv : ∀ a : I, a + -a = 0)
    (v : Vec2D I) (w : Vec3D I) :
    Vec2D.add v (Vec2D.neg v) = Vec2D.zero ∧
    Vec3D.add w (Vec3D.neg w) = Vec3D.zero := by
  constructor <;>
    simp [Vec2D.add, Vec2D.neg, Vec2D.mul, Vec2D.apply, Vec2D.zip_with,
      Vec2D.zero, Vec3D.add, Vec3D.neg, Vec3D.mul, Vec3D.apply,
      Vec3D.zip_with, Vec3D.zero, hneg, hinv]

/-- Witness for C3 at `I = Int`, `v = Vec2D(5, -7)`, `w = Vec3D(1, -2, 4)`. -/
theorem C3_add_neg_eq_zero_witness :
    Vec2D.add (Vec2D.mk (5 : Int) (-7)) (Vec2D.neg (Vec2D.mk 5 (-7))) =
      Vec2D.zero ∧
    Vec3D.add (Vec3D.mk (1 : Int) (-2) 4) (Vec3D.neg (Vec3D.mk 1 (-2) 4)) =
      Vec3D.zero :=
  C3_add_neg_eq_zero (fun a : Int => mul_neg_one a)
    (fun a : Int => add_neg_cancel a) (Vec2D.mk 5 (-7)) (Vec3D.mk 1 (-2) 4)

/-- Claim C4: over a scalar type whose `0` is a right additive identity and
whose `1` is a right multiplicative identity, `v + zero() = v` and
`v * 1 = v`, for both arities. -/
theorem C4_identity_laws {I : Type} [Add I] [Mul I] [Zero I] [One I]
    (hadd : ∀ a : I, a + 0 = a) (hmul : ∀ a : I, a * 1 = a)
    (v : Vec2D I) (w : Vec3D I) :
    Vec2D.add v Vec2D.zero = v ∧ Vec2D.mul v 1 = v ∧
    Vec3D.add w Vec3D.zero = w ∧ Vec3D.mul w 1 = w := by
  refine ⟨?_, ?_, ?_, ?_⟩ <;>
    simp [Vec2D.add, Vec2D.mul, Vec2D.apply, Vec2D.zip_with, Vec2D.zero,
      Vec3D.add, Vec3D.mul, Vec3D.apply, Vec3D.zip_with, Vec3D.zero,
      hadd, hmul]

/-- Witness for C4 at `I = Int`, `v = Vec2D(3, 4)`, `w = Vec3D(3, 4, 5)`. -/
theorem C4_identity_laws_witness :
    Vec2D.add (Vec2D.mk (3 : Int) 4) Vec2D.zero = Vec2D.mk 3 4 ∧
    Vec2D.mul (Vec2D.mk (3 : Int) 4) 1 = Vec2D.mk 3 4 ∧
    Vec3D.add (Vec3D.mk (3 : Int) 4 5) Vec3D.zero = Vec3D.mk 3 4 5 ∧
    Vec3D.mul (Vec3D.mk (3 : Int) 4 5) 1 = Vec3D.mk 3 4 5 :=
  C4_identity_laws (fun a : Int => add_zero a) (fun a : Int => mul_one a)
    (Vec2D.mk 3 4) (Vec3D.mk 3 4 5)

/-- Claim C5: over a scalar type whose multiplication right-distributes over
its addition, `(a + b) * k = (a * k) + (b * k)`, for both arities. -/
theorem C5_mul_distrib_over_add {I : Type} [Add I] [Mul I]
    (hdist : ∀ a b k : I, (a + b) * k = a * k + b * k)
    (a b : Vec2D I) (c d : Vec3D I) (k : I) :
    Vec2D.mul (Vec2D.add a b) k = Vec2D.add (Vec2D.mul a k) (Vec2D.mul b k) ∧
    Vec3D.mul (Vec3D.add c d) k = Vec3D.add (Vec3D.mul c k) (Vec3D.mul d k) := by
  constructor <;>
    simp [Vec2D.add, Vec2D.mul, Vec2D.apply, Vec2D.zip_with,
      Vec3D.add, Vec3D.mul, Vec3D.apply, Vec3D.zip_with, hdist]

/-- Witness for C5 at `I = Int`, `a = Vec2D(1, 2)`, `b = Vec2D(3, 4)`,
`c = Vec3D(1, 2, 3)`, `d = Vec3D(4, 5, 6)`, `k = 7`. -/
theorem C5_mul_distrib_over_add_witness :
    Vec2D.mul (Vec2D.add (Vec2D.mk (1 : Int) 2) (Vec2D.mk 3 4)) 7 =
      Vec2D.add (Vec2D.mul (Vec2D.mk 1 2) 7) (Vec2D.mul (Vec2D.mk 3 4) 7) ∧
    Vec3D.mul (Vec3D.add (Vec3D.mk (1 : Int) 2 3) (Vec3D.mk 4 5 6)) 7 =
      Vec3D.add (Vec3D.mul (Vec3D.mk 1 2 3) 7) (Vec3D.mul (Vec3D.mk 4 5 6) 7) :=
  C5_mul_distrib_over_add (fun a b k : Int => add_mul a b k)
    (Vec2D.mk 1 2) (Vec2D.mk 3 4) (Vec3D.mk 1 2 3) (Vec3D.mk 4 5 6) 7

/-- Claim C6: `v * k` multiplies every component by `k` on the right, and
coincides with `v.apply(|x| x * k)`, for both arities; concretely over
`Int`, `Vec2D(1, 3) * 2 = Vec2D(2, 6)`. -/
theorem C6_mul_componentwise_eq_apply {I : Type} [Mul I]
    (v : Vec2D I) (w : Vec3D I) (k : I) :
    (∀ i, (v.mul k).get i = v.get i * k) ∧
    Vec2D.mul v k = v.apply (fun a => a * k) ∧
    (∀ i, (w.mul k).get i = w.get i * k) ∧
    Vec3D.mul w k = w.apply (fun a => a * k) ∧
    Vec2D.mul (Vec2D.mk (1 : Int) 3) 2 = Vec2D.mk 2 6 := by
  refine ⟨?_, rfl, ?_, rfl, by decide⟩ <;> intro i <;> fin_cases i <;> rfl

/-- Claim C7: `v.apply(f)` produces a vector of the same arity whose i-th
component is `f` applied to the i-th component of `v`, for both arities. -/
theorem C7_apply_componentwise {I U : Type} (f : I → U)
    (v : Vec2D I) (w : Vec3D I) :
    (∀ i, (v.apply f).get i = f (v.get i)) ∧
    (∀ i, (w.apply f).get i = f (w.get i)) := by
  constructor <;> intro i <;> fin_cases i <;> rfl

/-- Claim C8: for vectors of the same arity whose scalar types may differ,
`a.zip_with(b, f)` produces a vector whose i-th component is
`f(a[i], b[i])`, for both arities. -/
theorem C8_zip_with_componentwise {I O U : Type} (f : I → O → U)
    (a : Vec2D I) (b : Vec2D O) (c : Vec3D I) (d : Vec3D O) :
    (∀ i, (a.zip_with b f).get i = f (a.get i) (b.get i)) ∧
    (∀ i, (c.zip_with d f).get i = f (c.get i) (d.get i)) := by
  constructor <;> intro i <;> fin_cases i <;> rfl

/-- Claim C9: two vectors of the same arity are equal exactly when all
corresponding components are equal, for both arities. -/
theorem C9_eq_iff_componentwise {I : Type} (u v : Vec2D I) (s t : Vec3D I) :
    (u = v ↔ ∀ i, u.get i = v.get i) ∧
    (s = t ↔ ∀ i, s.get i = t.get i) := by
  refine ⟨⟨fun h i => by rw [h], fun h => ?_⟩,
          ⟨fun h i => by rw [h], fun h => ?_⟩⟩
  · cases u with
    | mk a b =>
      cases v with
      | mk c d =>
        have h0 := h 0
        have h1 := h 1
        simp only [Vec2D.get] at h0 h1
        rw [h0, h1]
  · cases s with
    | mk a b c =>
      cases t with
      | mk d e g =>
        have h0 := h 0
        have h1 := h 1
        have h2 := h 2
        simp only [Vec3D.get] at h0 h1 h2
        rw [h0, h1, h2]

/-- A scalar type with a noncommutative multiplication: words over `Bool`
under concatenation. Used to separate right scalar multiplication from
left scalar multiplication. -/
structure NCWord where
  w : List Bool
deriving DecidableEq, Repr

instance : Mul NCWord :=
  ⟨fun a b => ⟨a.w ++ b.w⟩⟩

/-- Claim C10: scalar multiplication puts the scalar on the right of each
component product, `(v * k)[i] = v[i] * k`, for both arities; and over a
noncommutative scalar type there are `v`, `k` for which this differs from
componentwise left multiplication by `k`. -/
theorem C10_scalar_multiplies_on_right {I : Type} [Mul I]
    (v : Vec2D I) (w : Vec3D I) (k : I) :
    (∀ i, (v.mul k).get i = v.get i * k) ∧
    (∀ i, (w.mul k).get i = w.get i * k) ∧
    ∃ (u : Vec2D NCWord) (c : NCWord),
      u.mul c ≠ u.apply (fun a => c * a) := by
  refine ⟨?_, ?_,
    ⟨Vec2D.mk ⟨[true]⟩ ⟨[true]⟩, ⟨[false]⟩, by decide⟩⟩ <;>
    intro i <;> fin_cases i <;> rfl
